import Mathlib

/-!
Verification of `syncd/scripts/persistent_mloop.py` (persistent MLOOP port
configuration tool).

The Python module is shallowly embedded below:
  * external process collaborators (`sx_api_port_phys_loopback.py`,
    `sx_api_port_tx_signal_set.py`) are modelled as trace events; the
    TX-signal collaborator's success/failure on its n-th invocation is an
    oracle `txOk : Nat → Bool` (an exception raised by `check_output_pipe`
    corresponds to `txOk n = false`);
  * the JSON state file is modelled as a JSON document tree (`JVal`);
    `json.dump`/`json.load` translate between native values and the tree;
  * Python strings are modelled as `String`/`List Char` with Python's
    `find`, slicing (negative indices included), `split` semantics
    reproduced explicitly;
  * Python `int(...)` raising `ValueError` is modelled with `Except Unit`.
-/

namespace PersistentMloop

/-- Hardware-configuration collaborator invocations made by the script
(`subprocess.run` of the loopback-set tool, and each attempted invocation of
the TX-signal-set tool through `check_output_pipe`). -/
inductive Event where
  | setLoopback (logicalPort : String) (loopbackType : Int)
  | txAttempt (logicalPort : String)
deriving DecidableEq, Repr

/-- The retry bound, `MAX_RETRIES = 10` in the source. -/
def MAX_RETRIES : Nat := 10

/-- Python dict semantics for `self.port_translation`: an insertion-ordered
association list.  Assigning to an existing key updates the value in place
(position preserved); a new key is appended. -/
def dict_insert (d : List (String × String)) (k v : String) :
    List (String × String) :=
  if d.any (fun p => p.1 = k) then
    d.map (fun p => if p.1 = k then (k, v) else p)
  else
    d ++ [(k, v)]

/-- Python `dict.get`: `none` when the key is absent. -/
def dict_get (d : List (String × String)) (k : String) : Option String :=
  (d.find? (fun p => p.1 = k)).map (fun p => p.2)

/-- Python truthiness of `self.port_translation.get(port)`: `None` and the
empty string are both falsy. -/
def truthyStr (o : Option String) : Bool :=
  match o with
  | none => false
  | some s => !(s = "")

/-- The in-memory state of a `MloopConfig` object: `self.ports`,
`self.loopback_type` and `self.port_translation`. -/
structure MloopConfig where
  ports : List String
  loopback_type : Int
  port_translation : List (String × String)

/-- The `while (not configured) and (retries < MAX_RETRIES)` loop of
`config_port_to_mloop`, compiled with the loop variant
`remaining = MAX_RETRIES - retries` as structural fuel (the guard
`retries < MAX_RETRIES` is exactly `remaining > 0`).  Body: when the
loopback type is non-zero, invoke the TX-signal collaborator
(`Event.txAttempt`); on success set `configured = True` (stop), on an
exception increment `retries` and loop.  When the loopback type is zero no
collaborator call is made and `configured = True` immediately. -/
def tx_retry_go (txOk : Nat → Bool) (lt : Int) (lp : String) :
    Nat → Nat → List Event × Bool
  | _, 0 => ([], false)
  | retries, remaining + 1 =>
    if lt ≠ 0 then
      if txOk retries then
        ([Event.txAttempt lp], true)
      else
        let r := tx_retry_go txOk lt lp (retries + 1) remaining
        (Event.txAttempt lp :: r.1, r.2)
    else
      ([], true)

/-- The retry loop entered with retry counter `retries`; the source enters it
with `retries = 0`. -/
def tx_retry_loop (txOk : Nat → Bool) (lt : Int) (lp : String)
    (retries : Nat) : List Event × Bool :=
  tx_retry_go txOk lt lp retries (MAX_RETRIES - retries)

/-- Model of `MloopConfig.config_port_to_mloop`: one unconditional invocation of the
physical-loopback-set collaborator, then the bounded TX-signal retry loop.
Returns the collaborator-invocation trace and the final `configured` flag.
All exceptions of the TX-signal call are caught inside the loop, so the
function itself always returns normally. -/
def config_port_to_mloop (txOk : Nat → Bool) (lt : Int) (lp : String) :
    List Event × Bool :=
  let r := tx_retry_loop txOk lt lp 0
  (Event.setLoopback lp lt :: r.1, r.2)

/-- Number of TX-signal collaborator invocations in a trace. -/
def countTx (evs : List Event) : Nat :=
  evs.countP (fun e => match e with | Event.txAttempt _ => true | _ => false)

/-- JSON document tree; `json.dump` writes the tree corresponding to the
native Python value and `json.load` reads it back. -/
inductive JVal where
  | jnull
  | jint (n : Int)
  | jstr (s : String)
  | jarr (xs : List JVal)
  | jobj (fields : List (String × JVal))

/-- Python `dict.get` on a parsed JSON object. -/
def jGet (j : JVal) (k : String) : Option JVal :=
  match j with
  | JVal.jobj fields => (fields.find? (fun p => p.1 = k)).map (fun p => p.2)
  | _ => none

/-- Decode a JSON value back to the native string it encodes. -/
def asStr : JVal → Option String
  | JVal.jstr s => some s
  | _ => none

/-- Decode each element of a JSON array back to a native string; any
non-string element makes the decoding fail. -/
def asStrs : List JVal → Option (List String)
  | [] => some []
  | j :: t =>
    match asStr j, asStrs t with
    | some s, some ss => some (s :: ss)
    | _, _ => none

/-- Decode a JSON array of strings back to a native list of strings. -/
def asStrList (j : JVal) : Option (List String) :=
  match j with
  | JVal.jarr xs => asStrs xs
  | _ => none

/-- Decode a JSON value back to the native integer it encodes. -/
def asInt : JVal → Option Int
  | JVal.jint n => some n
  | _ => none

/-- Model of `MloopConfig.save_config`: the JSON document written to the state file,
`{"ports": self.ports, "loopback_type": self.loopback_type}`. -/
def save_config (ports : List String) (lt : Int) : JVal :=
  JVal.jobj [("ports", JVal.jarr (ports.map JVal.jstr)),
             ("loopback_type", JVal.jint lt)]

/-- Model of `MloopConfig.read_saved_config`: when the state file is absent return
`none` (the source returns `False`); otherwise read the stored
`ports`/`loopback_type` entries of the JSON object back as native values
(the source assigns them to `self.ports`/`self.loopback_type` and returns
`True`). -/
def read_saved_config (file : Option JVal) : Option (List String × Int) :=
  match file with
  | none => none
  | some j =>
    match jGet j "ports", jGet j "loopback_type" with
    | some p, some l =>
      match asStrList p, asInt l with
      | some ps, some n => some (ps, n)
      | _, _ => none
    | _, _ => none

theorem asStrs_map_jstr (P : List String) :
    asStrs (P.map JVal.jstr) = some P := by
  induction P with
  | nil => rfl
  | cons p t ih =>
    simp [asStrs, ih, asStr]

/-- C5: saving a configuration and loading it back returns exactly the saved
(port list, loopback type) pair. -/
theorem save_then_read_roundtrip (P : List String) (L : Int) :
    read_saved_config (some (save_config P L)) = some (P, L) := by
  simp [read_saved_config, save_config, jGet, List.find?, asStrList, asInt,
        asStrs_map_jstr]

/-- The collaborator invocations made for one entry of the `config_ports`
loop: look up the logical port (`self.port_translation.get(port)`); a falsy
result (absent key, modelled together with the empty string Python also
treats as falsy) is only reported and skipped; otherwise
`config_port_to_mloop` runs. -/
def port_events (txOk : Nat → Bool) (tbl : List (String × String))
    (lt : Int) (port : String) : List Event :=
  match dict_get tbl port with
  | none => []
  | some lp => if lp = "" then [] else (config_port_to_mloop txOk lt lp).1

/-- Result of `MloopConfig.config_ports`: the updated object state, the
collaborator-invocation trace, and the loop's local `configured_ports`
list (which the source builds and then discards). -/
structure PortsResult where
  cfg : MloopConfig
  trace : List Event
  configured_ports : List String

/-- Model of `MloopConfig.config_ports`: `if ports: self.ports = ports` (Python
truthiness: `None` and the empty list leave `self.ports` unchanged), then
for each name in `self.ports` look up its logical port, skip falsy lookups
with a diagnostic, and configure the rest in order. -/
def config_ports (txOk : Nat → Bool) (cfg : MloopConfig)
    (ports : Option (List String)) : PortsResult :=
  let self_ports :=
    match ports with
    | some ps => if ps.isEmpty then cfg.ports else ps
    | none => cfg.ports
  { cfg := { cfg with ports := self_ports },
    trace := self_ports.flatMap
      (port_events txOk cfg.port_translation cfg.loopback_type),
    configured_ports := self_ports.filter
      (fun p => truthyStr (dict_get cfg.port_translation p)) }

/-- Result of the `--ports` branch of `main`. -/
structure ListModeResult where
  cfg : MloopConfig
  trace : List Event
  configured_ports : List String
  file : JVal

/-- The `elif args.ports:` branch of `main`:
`mloopconfig.config_ports(args.ports)` followed by
`mloopconfig.save_config()` (which writes `self.ports` and
`self.loopback_type`).  The `MloopConfig` object starts with `self.ports =
[]` and the translation table built in `__init__`. -/
def list_mode (txOk : Nat → Bool) (tbl : List (String × String)) (lt : Int)
    (req : List String) : ListModeResult :=
  let cfg0 : MloopConfig :=
    { ports := [], loopback_type := lt, port_translation := tbl }
  let r := config_ports txOk cfg0 (some req)
  { cfg := r.cfg, trace := r.trace, configured_ports := r.configured_ports,
    file := save_config r.cfg.ports r.cfg.loopback_type }

theorem tx_retry_go_always_fail (txOk : Nat → Bool) (lt : Int) (lp : String)
    (h : ∀ n, txOk n = false) (hlt : lt ≠ 0) :
    ∀ remaining retries,
      countTx (tx_retry_go txOk lt lp retries remaining).1 = remaining ∧
      (tx_retry_go txOk lt lp retries remaining).2 = false := by
  intro remaining
  induction remaining with
  | zero => intro retries; simp [tx_retry_go, countTx]
  | succ m ih =>
    intro retries
    have hgo : tx_retry_go txOk lt lp retries (m + 1)
        = (Event.txAttempt lp :: (tx_retry_go txOk lt lp (retries + 1) m).1,
           (tx_retry_go txOk lt lp (retries + 1) m).2) := by
      simp [tx_retry_go, hlt, h retries]
    rw [hgo]
    refine ⟨?_, (ih (retries + 1)).2⟩
    have hc := (ih (retries + 1)).1
    simp only [countTx, List.countP_cons] at hc ⊢
    simp [hc]

/-- C6: with a non-zero loopback type and a TX-signal collaborator that fails
on every invocation, `config_port_to_mloop` makes exactly `MAX_RETRIES = 10`
TX-signal invocation attempts for the port, ends with `configured = False`
(the failure is only printed, never raised: the function is total and
returns normally), and any later port of the same `config_ports` run with a
truthy table entry still receives its loopback-set invocation. -/
theorem tx_signal_failure_bounded_and_run_continues
    (txOk : Nat → Bool) (lt : Int) (lp : String)
    (h : ∀ n, txOk n = false) (hlt : lt ≠ 0) :
    countTx (config_port_to_mloop txOk lt lp).1 = 10 ∧
    (config_port_to_mloop txOk lt lp).2 = false ∧
    (∀ (cfg : MloopConfig) (p lq : String), cfg.loopback_type = lt →
      dict_get cfg.port_translation p = some lq → lq ≠ "" → p ∈ cfg.ports →
      Event.setLoopback lq lt ∈ (config_ports txOk cfg none).trace) := by
  have hmain := tx_retry_go_always_fail txOk lt lp h hlt MAX_RETRIES 0
  refine ⟨?_, ?_, ?_⟩
  · simpa [config_port_to_mloop, tx_retry_loop, countTx, MAX_RETRIES]
      using hmain.1
  · simpa [config_port_to_mloop, tx_retry_loop] using hmain.2
  · intro cfg p lq hcfg hget hlq hp
    simp only [config_ports, List.mem_flatMap]
    refine ⟨p, hp, ?_⟩
    simp [port_events, hget, hlq, config_port_to_mloop, hcfg]

/-- C6 witness: a concrete always-failing oracle, loopback type 2, and a
one-port table behind a two-port run. -/
theorem tx_signal_failure_bounded_witness :
    countTx (config_port_to_mloop (fun _ => false) 2 "0x1").1 = 10 ∧
    (config_port_to_mloop (fun _ => false) 2 "0x1").2 = false ∧
    Event.setLoopback "0x2" 2 ∈
      (config_ports (fun _ => false)
        { ports := ["Ethernet0", "Ethernet4"], loopback_type := 2,
          port_translation :=
            [("Ethernet0", "0x1"), ("Ethernet4", "0x2")] } none).trace := by
  have h := tx_signal_failure_bounded_and_run_continues
    (fun _ => false) 2 "0x1" (fun _ => rfl) (by decide)
  exact ⟨h.1, h.2.1,
    h.2.2 { ports := ["Ethernet0", "Ethernet4"], loopback_type := 2,
            port_translation :=
              [("Ethernet0", "0x1"), ("Ethernet4", "0x2")] }
      "Ethernet4" "0x2" rfl (by decide) (by decide) (by decide)⟩

/-- C7: configuring a port with loopback type 0 makes exactly one
loopback-set invocation, no TX-signal invocation at all (the retry loop's
first iteration sets `configured = True` without calling the collaborator),
and ends with the port considered configured. -/
theorem loopback_zero_skips_tx_retry (txOk : Nat → Bool) (lp : String) :
    (config_port_to_mloop txOk 0 lp).1 = [Event.setLoopback lp 0] ∧
    (config_port_to_mloop txOk 0 lp).2 = true ∧
    countTx (config_port_to_mloop txOk 0 lp).1 = 0 := by
  refine ⟨?_, ?_, ?_⟩ <;>
    simp [config_port_to_mloop, tx_retry_loop, tx_retry_go, MAX_RETRIES,
      countTx]

/-- ASCII whitespace as recognized by Python `str.split()`/`int()`. -/
def isPySpace (c : Char) : Bool :=
  c = ' ' || c = '\t' || c = '\n' || c = '\r'

/-- Python `s.split(sep)` for a one-character separator: split points at
every separator occurrence, empty pieces kept (so `"".split` gives one empty
piece). -/
def splitOnNl : List Char → List (List Char)
  | [] => [[]]
  | c :: t =>
    let r := splitOnNl t
    if c = '\n' then [] :: r
    else
      match r with
      | h :: t2 => (c :: h) :: t2
      | [] => [[c]]

/-- Python `s.split()` with no argument: pieces separated by whitespace
runs, with no empty pieces. -/
def pySplitWs (l : List Char) : List (List Char) :=
  (l.foldr
    (fun c acc =>
      if isPySpace c then [] :: acc
      else
        match acc with
        | h :: t => (c :: h) :: t
        | [] => [[c]])
    []).filter (fun w => w ≠ [])

/-- Index of the first occurrence of `pat` as a contiguous substring, if
any (the index-returning core of Python `str.find`). -/
def findSub (pat : List Char) : List Char → Option Nat
  | [] => if pat = [] then some 0 else none
  | c :: t =>
    if pat.isPrefixOf (c :: t) then some 0
    else (findSub pat t).map (fun i => i + 1)

/-- Python `str.find`: the index of the first occurrence, `-1` if absent. -/
def strFind (pat l : List Char) : Int :=
  match findSub pat l with
  | some i => (i : Int)
  | none => -1

/-- Normalize one Python slice bound for a sequence of length `n`: a
negative index counts from the end (clamped below at 0), a non-negative one
is clamped above at `n`. -/
def pyIndex (n : Nat) (i : Int) : Nat :=
  if i < 0 then (i + n).toNat else min i.toNat n

/-- Python slice `l[a:b]` with full negative-index semantics. -/
def pySlice (l : List Char) (a b : Int) : List Char :=
  let a2 := pyIndex l.length a
  let b2 := pyIndex l.length b
  (l.drop a2).take (b2 - a2)

/-- Value of a decimal digit string. -/
def digitsVal (l : List Char) : Nat :=
  l.foldl (fun acc c => acc * 10 + (c.toNat - 48)) 0

/-- Python `int(s)` on a string: strip surrounding whitespace, allow one
leading sign, then require a non-empty run of decimal digits; anything else
raises `ValueError` (`Except.error`). -/
def pyInt (s : String) : Except Unit Int :=
  let t := ((s.data.dropWhile isPySpace).reverse.dropWhile isPySpace).reverse
  match t with
  | [] => Except.error ()
  | c :: ds =>
    if c = '-' then
      if ds ≠ [] ∧ ds.all Char.isDigit then Except.ok (-(digitsVal ds : Int))
      else Except.error ()
    else if c = '+' then
      if ds ≠ [] ∧ ds.all Char.isDigit then Except.ok (digitsVal ds : Int)
      else Except.error ()
    else if (c :: ds).all Char.isDigit then
      Except.ok (digitsVal (c :: ds) : Int)
    else Except.error ()

/-- The source's `port_sorting(port)`, the key function of the
translation-table sort, applied to a `(name, logical id)` item:
`int(port[0][len("Ethernet"):]) if "Ethernet" in port[0] else 0`.
Python `in` is substring containment; `int` may raise. -/
def port_sorting (port : String × String) : Except Unit Int :=
  if (findSub "Ethernet".data port.1.data).isSome then
    pyInt (String.mk (port.1.data.drop "Ethernet".length))
  else
    Except.ok 0

/-- Insert a keyed item into a key-sorted list, before any item of equal
key (so that the enclosing insertion sort is stable, like Python
`sorted`). -/
def insertByKey (x : Int × (String × String)) :
    List (Int × (String × String)) → List (Int × (String × String))
  | [] => [x]
  | y :: t => if x.1 ≤ y.1 then x :: y :: t else y :: insertByKey x t

/-- Stable ascending sort by the precomputed key. -/
def sortByKey : List (Int × (String × String)) →
    List (Int × (String × String))
  | [] => []
  | x :: t => insertByKey x (sortByKey t)

/-- Python `sorted(items, key=port_sorting)`: evaluate the key on every
item (propagating a `ValueError` from any key evaluation), then stable-sort
by key ascending. -/
def pySorted (l : List (String × String)) :
    Except Unit (List (String × String)) :=
  match l.foldr
    (fun p acc =>
      match port_sorting p, acc with
      | Except.ok k, Except.ok r => Except.ok ((k, p) :: r)
      | _, _ => Except.error ())
    (Except.ok []) with
  | Except.error () => Except.error ()
  | Except.ok keyed => Except.ok ((sortByKey keyed).map (fun p => p.2))

/-- Model of `MloopConfig.build_translation_dict`, as a function of the SDK dump
snapshot text (the `saisdkdump` invocation that materializes the snapshot is
the external collaborator): locate the `netdev_dump` .. `cmd_ifc_dump`
sub-region with Python `find` (`-1` when absent, then used directly as a
slice bound), split into lines, drop the 4 header lines, keep rows with at
least 3 whitespace-separated fields (column 2 = port name, column 3 =
logical id, last occurrence wins), and sort by `port_sorting`. -/
def build_translation_dict (dump : String) :
    Except Unit (List (String × String)) :=
  let chars := dump.data
  let start_index := strFind "netdev_dump".data chars
  let end_index := strFind "cmd_ifc_dump".data chars
  let port_table := (splitOnNl (pySlice chars start_index end_index)).drop 4
  let d := port_table.foldl
    (fun acc line =>
      match pySplitWs line with
      | _ :: f1 :: f2 :: _ => dict_insert acc (String.mk f1) (String.mk f2)
      | _ => acc)
    []
  pySorted d

/-- The diagnostic printed by `parse_range` when the end port is seen while
the start port has not been (the source's exact message, with the
apostrophe-free wording of the f-string removed). -/
def endBeforeStartMsg : String :=
  "Error: invalid range - end port found before start port"

/-- Loop state of `MloopConfig.parse_range`: the two flags, the collected
logical ports, the caller's `self.ports` list (mutated in place by the
loop), the diagnostics printed so far, and — as pure instrumentation of
control flow — the names of the table entries the loop has examined. -/
structure RangeScan where
  found_first : Bool
  found_last : Bool
  logical_ports : List String
  ports : List String
  logs : List String
  visited : List String

/-- The `for port, logical_port in self.port_translation.items()` loop of
`parse_range`: set `found_first`/`found_last` on matching names, collect the
entry while started and the end not yet seen, print the out-of-order
diagnostic when the end is seen before the start, and `break` as soon as
`found_last` holds. -/
def scan_range (startP endP : String) :
    RangeScan → List (String × String) → RangeScan
  | st, [] => st
  | st, (port, logical_port) :: rest =>
    let ff := st.found_first || (port == startP)
    let fl := st.found_last || (port == endP)
    let st1 : RangeScan :=
      if ff && !fl then
        ⟨ff, fl, st.logical_ports ++ [logical_port], st.ports ++ [port],
         st.logs, st.visited ++ [port]⟩
      else if fl && !ff then
        ⟨ff, fl, st.logical_ports, st.ports,
         st.logs ++ [endBeforeStartMsg], st.visited ++ [port]⟩
      else
        ⟨ff, fl, st.logical_ports, st.ports, st.logs, st.visited ++ [port]⟩
    if fl then st1 else scan_range startP endP st1 rest

/-- Result of `MloopConfig.parse_range`: the updated object state, the
diagnostics, the instrumented visit order, and the returned value
(`none` models returning `None`). -/
structure RangeResult where
  cfg : MloopConfig
  logs : List String
  visited : List String
  result : Option (List String)

/-- Model of `MloopConfig.parse_range`: run the scan from a fresh state; afterwards,
if the start was found but the end never was, print the second diagnostic
and return `None`; otherwise return the collected logical ports, or `None`
when nothing was collected (`logical_ports if logical_ports else None`). -/
def parse_range (cfg : MloopConfig) (startP endP : String) : RangeResult :=
  let st := scan_range startP endP
    ⟨false, false, [], cfg.ports, [], []⟩ cfg.port_translation
  if st.found_first && !st.found_last then
    { cfg := { cfg with ports := st.ports },
      logs := st.logs ++
        ["Error: invalid range - " ++ startP ++ " does not exist"],
      visited := st.visited, result := none }
  else
    { cfg := { cfg with ports := st.ports },
      logs := st.logs, visited := st.visited,
      result :=
        if st.logical_ports.isEmpty then none else some st.logical_ports }

/-- Result of `MloopConfig.config_range`: final object state, the
collaborator-invocation trace, the diagnostics, and the state file written
(`none` when `save_config` was never reached). -/
structure RunResult where
  cfg : MloopConfig
  trace : List Event
  logs : List String
  file : Option JVal

/-- Model of `MloopConfig.config_range`: resolve the range; on a falsy result (`None`
or an empty list) print `Invalid port range` and return without configuring
or saving; otherwise configure every resolved logical port and then
`save_config()`. -/
def config_range (txOk : Nat → Bool) (cfg : MloopConfig)
    (startP endP : String) : RunResult :=
  let r := parse_range cfg startP endP
  match r.result with
  | none =>
    { cfg := r.cfg, trace := [], logs := r.logs ++ ["Invalid port range"],
      file := none }
  | some lps =>
    if lps.isEmpty then
      { cfg := r.cfg, trace := [], logs := r.logs ++ ["Invalid port range"],
        file := none }
    else
      { cfg := r.cfg,
        trace := lps.flatMap
          (fun lp => (config_port_to_mloop txOk r.cfg.loopback_type lp).1),
        logs := r.logs,
        file := some (save_config r.cfg.ports r.cfg.loopback_type) }

theorem scan_range_skip (startP endP : String) :
    ∀ (A rest : List (String × String)) (st : RangeScan),
      st.found_first = false → st.found_last = false →
      startP ∉ A.map Prod.fst → endP ∉ A.map Prod.fst →
      scan_range startP endP st (A ++ rest)
        = scan_range startP endP
            ⟨false, false, st.logical_ports, st.ports, st.logs,
             st.visited ++ A.map Prod.fst⟩ rest := by
  intro A
  induction A with
  | nil =>
    intro rest st hff hfl _ _
    obtain ⟨ff0, fl0, lps0, ps0, lg0, vis0⟩ := st
    dsimp only at hff hfl
    subst hff hfl
    simp
  | cons hd tl ih =>
    intro rest st hff hfl hs he
    obtain ⟨port, lp⟩ := hd
    simp only [List.map_cons, List.mem_cons, not_or] at hs he
    obtain ⟨ff0, fl0, lps0, ps0, lg0, vis0⟩ := st
    dsimp only at hff hfl
    subst hff hfl
    have hbs : (port == startP) = false := by
      simp only [beq_eq_false_iff_ne]
      exact fun h => hs.1 h.symm
    have hbe : (port == endP) = false := by
      simp only [beq_eq_false_iff_ne]
      exact fun h => he.1 h.symm
    rw [List.cons_append, scan_range]
    simp only [hbs, hbe, Bool.or_false, Bool.false_and, Bool.and_false,
      Bool.not_false, Bool.and_true, if_false, Bool.false_eq_true, ite_false]
    rw [ih rest ⟨false, false, lps0, ps0, lg0, vis0 ++ [port]⟩ rfl rfl
      hs.2 he.2]
    simp

theorem scan_range_collect (startP endP : String) :
    ∀ (C D : List (String × String)) (w : String) (st : RangeScan),
      st.found_first = true → st.found_last = false →
      endP ∉ C.map Prod.fst →
      scan_range startP endP st (C ++ (endP, w) :: D)
        = ⟨true, true, st.logical_ports ++ C.map Prod.snd,
           st.ports ++ C.map Prod.fst, st.logs,
           st.visited ++ C.map Prod.fst ++ [endP]⟩ := by
  intro C
  induction C with
  | nil =>
    intro D w st hff hfl _
    obtain ⟨ff0, fl0, lps0, ps0, lg0, vis0⟩ := st
    dsimp only at hff hfl
    subst hff hfl
    rw [List.nil_append, scan_range]
    simp
  | cons hd tl ih =>
    intro D w st hff hfl he
    obtain ⟨port, lp⟩ := hd
    simp only [List.map_cons, List.mem_cons, not_or] at he
    obtain ⟨ff0, fl0, lps0, ps0, lg0, vis0⟩ := st
    dsimp only at hff hfl
    subst hff hfl
    have hbe : (port == endP) = false := by
      simp only [beq_eq_false_iff_ne]
      exact fun h => he.1 h.symm
    rw [List.cons_append, scan_range]
    simp only [hbe, Bool.or_false, Bool.true_or, Bool.not_false,
      Bool.true_and, Bool.and_true, if_true, Bool.false_eq_true, ite_false,
      ite_true]
    rw [ih D w ⟨true, false, lps0 ++ [lp], ps0 ++ [port], lg0,
      vis0 ++ [port]⟩ rfl rfl he.2]
    simp

theorem scan_range_collect_all (startP endP : String) :
    ∀ (B : List (String × String)) (st : RangeScan),
      st.found_first = true → st.found_last = false →
      endP ∉ B.map Prod.fst →
      scan_range startP endP st B
        = ⟨true, false, st.logical_ports ++ B.map Prod.snd,
           st.ports ++ B.map Prod.fst, st.logs,
           st.visited ++ B.map Prod.fst⟩ := by
  intro B
  induction B with
  | nil =>
    intro st hff hfl _
    obtain ⟨ff0, fl0, lps0, ps0, lg0, vis0⟩ := st
    dsimp only at hff hfl
    subst hff hfl
    simp [scan_range]
  | cons hd tl ih =>
    intro st hff hfl he
    obtain ⟨port, lp⟩ := hd
    simp only [List.map_cons, List.mem_cons, not_or] at he
    obtain ⟨ff0, fl0, lps0, ps0, lg0, vis0⟩ := st
    dsimp only at hff hfl
    subst hff hfl
    have hbe : (port == endP) = false := by
      simp only [beq_eq_false_iff_ne]
      exact fun h => he.1 h.symm
    rw [scan_range]
    simp only [hbe, Bool.or_false, Bool.true_or, Bool.not_false,
      Bool.true_and, Bool.and_true, if_true, Bool.false_eq_true, ite_false,
      ite_true]
    rw [ih ⟨true, false, lps0 ++ [lp], ps0 ++ [port], lg0,
      vis0 ++ [port]⟩ rfl rfl he.2]
    simp

theorem scan_range_ff_mono (startP endP : String) :
    ∀ (l : List (String × String)) (st : RangeScan),
      st.found_first = true →
      (scan_range startP endP st l).found_first = true := by
  intro l
  induction l with
  | nil => intro st h; simpa [scan_range] using h
  | cons hd tl ih =>
    intro st h
    obtain ⟨port, lp⟩ := hd
    rw [scan_range]
    simp only [h, Bool.true_or, Bool.not_true, Bool.and_false,
      Bool.true_and, Bool.false_eq_true, ite_false]
    split
    · split <;> rfl
    · exact ih _ (by split <;> rfl)

theorem scan_range_start_absent (startP endP : String) :
    ∀ (l : List (String × String)) (st : RangeScan),
      st.found_first = false →
      startP ∉ l.map Prod.fst →
      (scan_range startP endP st l).found_first = false ∧
      (scan_range startP endP st l).logical_ports = st.logical_ports ∧
      (scan_range startP endP st l).ports = st.ports := by
  intro l
  induction l with
  | nil =>
    intro st h _
    simp [scan_range, h]
  | cons hd tl ih =>
    intro st h hs
    obtain ⟨port, lp⟩ := hd
    simp only [List.map_cons, List.mem_cons, not_or] at hs
    have hbs : (port == startP) = false := by
      simp only [beq_eq_false_iff_ne]
      exact fun hx => hs.1 hx.symm
    rw [scan_range]
    simp only [h, hbs, Bool.or_false, Bool.false_or, Bool.false_and,
      Bool.not_false, Bool.and_true, Bool.false_eq_true, ite_false]
    split
    · exact ⟨rfl, rfl, rfl⟩
    · exact ih _ rfl hs.2

theorem scan_range_end_absent (startP endP : String) :
    ∀ (l : List (String × String)) (st : RangeScan),
      st.found_last = false →
      endP ∉ l.map Prod.fst →
      (scan_range startP endP st l).found_last = false := by
  intro l
  induction l with
  | nil =>
    intro st h _
    simpa [scan_range] using h
  | cons hd tl ih =>
    intro st h he
    obtain ⟨port, lp⟩ := hd
    simp only [List.map_cons, List.mem_cons, not_or] at he
    have hbe : (port == endP) = false := by
      simp only [beq_eq_false_iff_ne]
      exact fun hx => he.1 hx.symm
    rw [scan_range]
    simp only [h, hbe, Bool.or_false, Bool.false_or, Bool.false_and,
      Bool.not_false, Bool.and_true, Bool.false_eq_true, ite_false]
    exact ih _ (by split <;> rfl) he.2

theorem scan_range_ff_false_no_collect (startP endP : String) :
    ∀ (l : List (String × String)) (st : RangeScan),
      (scan_range startP endP st l).found_first = false →
      (scan_range startP endP st l).logical_ports = st.logical_ports := by
  intro l
  induction l with
  | nil => intro st _; simp [scan_range]
  | cons hd tl ih =>
    intro st h
    obtain ⟨port, lp⟩ := hd
    by_cases hfl : (st.found_last || (port == endP)) = true
    · by_cases hff : (st.found_first || (port == startP)) = true
      · rw [scan_range] at h
        simp only [hff, hfl, Bool.not_true, Bool.and_false, Bool.true_and,
          Bool.false_eq_true, ite_false, ite_true] at h
        exact absurd h (by simp)
      · rw [scan_range]
        simp only [hff, hfl, Bool.not_true, Bool.and_false,
          Bool.false_eq_true, ite_false, ite_true,
          Bool.not_eq_true] at h ⊢
        rw [Bool.not_eq_true] at hff
        simp [hff, hfl]
    · rw [Bool.not_eq_true] at hfl
      by_cases hff : (st.found_first || (port == startP)) = true
      · rw [scan_range] at h
        simp only [hff, hfl, Bool.not_false, Bool.and_true, Bool.false_and,
          Bool.false_eq_true, ite_false, ite_true] at h
        have := scan_range_ff_mono startP endP tl
          ⟨true, false, st.logical_ports ++ [lp], st.ports ++ [port],
           st.logs, st.visited ++ [port]⟩ rfl
        rw [h] at this
        cases this
      · rw [Bool.not_eq_true] at hff
        rw [scan_range] at h ⊢
        simp only [hff, hfl, Bool.not_false, Bool.and_true, Bool.false_and,
          Bool.false_eq_true, ite_false, ite_true] at h ⊢
        exact ih _ h

theorem parse_range_loopback_preserved (cfg : MloopConfig)
    (startP endP : String) :
    (parse_range cfg startP endP).cfg.loopback_type = cfg.loopback_type ∧
    (parse_range cfg startP endP).cfg.port_translation
      = cfg.port_translation := by
  rw [parse_range]
  split <;> exact ⟨rfl, rfl⟩

theorem parse_range_start_absent (cfg : MloopConfig) (startP endP : String)
    (hs : startP ∉ cfg.port_translation.map Prod.fst) :
    (parse_range cfg startP endP).result = none := by
  have h := scan_range_start_absent startP endP cfg.port_translation
    ⟨false, false, [], cfg.ports, [], []⟩ rfl hs
  rw [parse_range]
  simp [h.1, h.2.1]

theorem parse_range_end_absent (cfg : MloopConfig) (startP endP : String)
    (he : endP ∉ cfg.port_translation.map Prod.fst) :
    (parse_range cfg startP endP).result = none := by
  have hfl := scan_range_end_absent startP endP cfg.port_translation
    ⟨false, false, [], cfg.ports, [], []⟩ rfl he
  by_cases hff : (scan_range startP endP
      ⟨false, false, [], cfg.ports, [], []⟩
      cfg.port_translation).found_first = true
  · rw [parse_range]
    simp [hff, hfl]
  · rw [Bool.not_eq_true] at hff
    have hlp := scan_range_ff_false_no_collect startP endP
      cfg.port_translation ⟨false, false, [], cfg.ports, [], []⟩ hff
    rw [parse_range]
    simp [hff, hlp]

/-- The four-entry translation table of the spec's range example, with
distinct logical ids, and an object state around it. -/
def tbl4 : List (String × String) :=
  [("Ethernet0", "0x0"), ("Ethernet4", "0x4"),
   ("Ethernet8", "0x8"), ("Ethernet12", "0xc")]

/-- A fresh `MloopConfig` whose translation table is `tbl4`. -/
def cfg4 : MloopConfig :=
  { ports := [], loopback_type := 2, port_translation := tbl4 }

/-- C1 counterexample: on table order
[Ethernet0, Ethernet4, Ethernet8, Ethernet12] and range
(Ethernet4, Ethernet8), `parse_range` returns only Ethernet4's logical id;
the end entry's logical id 0x8 is not in the result, contradicting
inclusivity of the end. -/
theorem range_end_port_not_collected :
    (parse_range cfg4 "Ethernet4" "Ethernet8").result = some ["0x4"] ∧
    "0x8" ∉ ["0x4"] := by
  decide

/-- C1 (amended): range resolution is inclusive of the start entry but
exclusive of the end entry.  For every table decomposed as
`A ++ (s, v) :: C ++ (e, w) :: D` where the first occurrence of the start
name `s` precedes the first occurrence of the end name `e`, the result is
the logical ids of the entries from the start entry up to but not including
the end entry, in table order. -/
theorem range_resolution_start_inclusive_end_exclusive
    (cfg : MloopConfig) (A C D : List (String × String)) (v w : String)
    (s e : String)
    (htbl : cfg.port_translation = A ++ (s, v) :: (C ++ (e, w) :: D))
    (hsA : s ∉ A.map Prod.fst) (heA : e ∉ A.map Prod.fst)
    (hes : e ≠ s) (heC : e ∉ C.map Prod.fst) :
    (parse_range cfg s e).result = some (v :: C.map Prod.snd) := by
  have hss : (s == s) = true := beq_self_eq_true s
  have hse : (s == e) = false :=
    beq_eq_false_iff_ne.mpr (fun h => hes h.symm)
  have hscan : scan_range s e ⟨false, false, [], cfg.ports, [], []⟩
      cfg.port_translation
      = ⟨true, true, [v] ++ C.map Prod.snd,
         (cfg.ports ++ [s]) ++ C.map Prod.fst, [],
         ((A.map Prod.fst ++ [s]) ++ C.map Prod.fst) ++ [e]⟩ := by
    rw [htbl, scan_range_skip s e A _ _ rfl rfl hsA heA, scan_range]
    simp only [hss, hse, Bool.or_true, Bool.or_false, Bool.not_false,
      Bool.true_and, Bool.and_true, Bool.false_eq_true, ite_false, ite_true,
      List.nil_append]
    rw [scan_range_collect s e C D w _ rfl rfl heC]
  rw [parse_range]
  simp only [hscan]
  simp

/-- C1 witness for the amended theorem: the spec's own example table. -/
theorem range_resolution_end_exclusive_witness :
    (parse_range cfg4 "Ethernet4" "Ethernet8").result = some ["0x4"] :=
  range_resolution_start_inclusive_end_exclusive cfg4
    [("Ethernet0", "0x0")] [] [("Ethernet12", "0xc")] "0x4" "0x8"
    "Ethernet4" "Ethernet8" rfl (by decide) (by decide) (by decide)
    (by decide)

/-- C2 counterexample: with table [Ethernet0, Ethernet4, Ethernet8,
Ethernet12] and range (Ethernet8, Ethernet0) — end before start — the loop
prints the invalid-range diagnostic but then breaks at the first entry: it
visits only Ethernet0 instead of continuing over the remaining entries, and
resolution returns failure (`None`). -/
theorem range_end_before_start_breaks_concrete :
    (parse_range cfg4 "Ethernet8" "Ethernet0").logs
        = [endBeforeStartMsg] ∧
    (parse_range cfg4 "Ethernet8" "Ethernet0").visited = ["Ethernet0"] ∧
    (parse_range cfg4 "Ethernet8" "Ethernet0").visited
        ≠ tbl4.map Prod.fst ∧
    (parse_range cfg4 "Ethernet8" "Ethernet0").result = none := by
  decide

/-- C2 (amended): when the first occurrence of the end name precedes any
occurrence of the start name, `parse_range` prints the invalid-range
diagnostic at the end entry and stops scanning immediately (the `break` on
`found_last` fires): it visits exactly the entries up to and including the
end entry, returns failure (`None`, since nothing was collected), and
leaves the caller's port set unchanged. -/
theorem range_end_before_start_diag_and_stop
    (cfg : MloopConfig) (A B : List (String × String)) (w : String)
    (s e : String)
    (htbl : cfg.port_translation = A ++ (e, w) :: B)
    (hsA : s ∉ A.map Prod.fst) (heA : e ∉ A.map Prod.fst) (hse : s ≠ e) :
    (parse_range cfg s e).logs = [endBeforeStartMsg] ∧
    (parse_range cfg s e).visited = A.map Prod.fst ++ [e] ∧
    (parse_range cfg s e).result = none ∧
    (parse_range cfg s e).cfg.ports = cfg.ports := by
  have hee : (e == e) = true := beq_self_eq_true e
  have hes : (e == s) = false := beq_eq_false_iff_ne.mpr (Ne.symm hse)
  have hscan : scan_range s e ⟨false, false, [], cfg.ports, [], []⟩
      cfg.port_translation
      = ⟨false, true, [], cfg.ports, [endBeforeStartMsg],
         A.map Prod.fst ++ [e]⟩ := by
    rw [htbl, scan_range_skip s e A _ _ rfl rfl hsA heA, scan_range]
    simp [hee, hes]
  rw [parse_range]
  simp only [hscan]
  simp

/-- C2 witness for the amended theorem: range (Ethernet8, Ethernet0) on the
example table. -/
theorem range_end_before_start_witness :
    (parse_range cfg4 "Ethernet8" "Ethernet0").logs
        = [endBeforeStartMsg] ∧
    (parse_range cfg4 "Ethernet8" "Ethernet0").visited = ["Ethernet0"] ∧
    (parse_range cfg4 "Ethernet8" "Ethernet0").result = none ∧
    (parse_range cfg4 "Ethernet8" "Ethernet0").cfg.ports = cfg4.ports := by
  have h := range_end_before_start_diag_and_stop cfg4 []
    [("Ethernet4", "0x4"), ("Ethernet8", "0x8"), ("Ethernet12", "0xc")]
    "0x0" "Ethernet8" "Ethernet0" rfl (by decide) (by decide) (by decide)
  simpa using h

/-- C10: when the start name is in the table and the end name is nowhere in
it, `parse_range` returns failure (`None`) yet has already appended the
start entry's name and every later entry's name to the caller's `self.ports`
— the failed resolution mutates the port set as a side effect. -/
theorem range_failure_still_appends_ports
    (cfg : MloopConfig) (A B : List (String × String)) (v : String)
    (s e : String)
    (htbl : cfg.port_translation = A ++ (s, v) :: B)
    (hsA : s ∉ A.map Prod.fst) (heA : e ∉ A.map Prod.fst)
    (hes : e ≠ s) (heB : e ∉ B.map Prod.fst) :
    (parse_range cfg s e).result = none ∧
    (parse_range cfg s e).cfg.ports = cfg.ports ++ s :: B.map Prod.fst := by
  have hss : (s == s) = true := beq_self_eq_true s
  have hse : (s == e) = false :=
    beq_eq_false_iff_ne.mpr (fun h => hes h.symm)
  have hscan : scan_range s e ⟨false, false, [], cfg.ports, [], []⟩
      cfg.port_translation
      = ⟨true, false, [v] ++ B.map Prod.snd,
         (cfg.ports ++ [s]) ++ B.map Prod.fst, [],
         ((A.map Prod.fst ++ [s])) ++ B.map Prod.fst⟩ := by
    rw [htbl, scan_range_skip s e A _ _ rfl rfl hsA heA, scan_range]
    simp only [hss, hse, Bool.or_true, Bool.or_false, Bool.not_false,
      Bool.true_and, Bool.and_true, Bool.false_eq_true, ite_false, ite_true,
      List.nil_append]
    rw [scan_range_collect_all s e B _ rfl rfl heB]
  rw [parse_range]
  simp only [hscan]
  simp

/-- C10 witness: range (Ethernet4, Ethernet99) on the example table leaves
[Ethernet4, Ethernet8, Ethernet12] appended to the port set while failing. -/
theorem range_failure_still_appends_ports_witness :
    (parse_range cfg4 "Ethernet4" "Ethernet99").result = none ∧
    (parse_range cfg4 "Ethernet4" "Ethernet99").cfg.ports
      = ["Ethernet4", "Ethernet8", "Ethernet12"] := by
  have h := range_failure_still_appends_ports cfg4
    [("Ethernet0", "0x0")] [("Ethernet8", "0x8"), ("Ethernet12", "0xc")]
    "0x4" "Ethernet4" "Ethernet99" rfl (by decide) (by decide) (by decide)
    (by decide)
  simpa using h

/-- C9: in range mode, on every failed resolution — in particular when the
start name is absent from the table, or the end name is absent (table
exhausted) — `config_range` makes no hardware-configuration collaborator
invocation and writes no state file; on every successful (non-empty)
resolution it writes the state file with the resulting port set and the
run's loopback type. -/
theorem range_mode_no_config_without_resolution
    (txOk : Nat → Bool) (cfg : MloopConfig) (s e : String) :
    ((parse_range cfg s e).result = none ∨
        (parse_range cfg s e).result = some [] →
      (config_range txOk cfg s e).trace = [] ∧
      (config_range txOk cfg s e).file = none) ∧
    (s ∉ cfg.port_translation.map Prod.fst →
      (parse_range cfg s e).result = none) ∧
    (e ∉ cfg.port_translation.map Prod.fst →
      (parse_range cfg s e).result = none) ∧
    (∀ lps, (parse_range cfg s e).result = some lps → lps ≠ [] →
      (config_range txOk cfg s e).file
        = some (save_config (parse_range cfg s e).cfg.ports
            cfg.loopback_type)) := by
  refine ⟨?_, parse_range_start_absent cfg s e,
    parse_range_end_absent cfg s e, ?_⟩
  · intro h
    rcases h with h | h <;> simp [config_range, h]
  · intro lps h hne
    have hlt := (parse_range_loopback_preserved cfg s e).1
    simp [config_range, h, hne, hlt]

/-- C9 witness: on the example table, the range (Ethernet99, Ethernet8)
fails with no trace and no file write, and the range (Ethernet4, Ethernet8)
succeeds and writes the file. -/
theorem range_mode_no_config_without_resolution_witness :
    ((config_range (fun _ => true) cfg4 "Ethernet99" "Ethernet8").trace = []
      ∧ (config_range (fun _ => true) cfg4 "Ethernet99" "Ethernet8").file
          = none) ∧
    (config_range (fun _ => true) cfg4 "Ethernet4" "Ethernet8").file
      = some (save_config ["Ethernet4"] 2) := by
  have h := range_mode_no_config_without_resolution (fun _ => true) cfg4
    "Ethernet99" "Ethernet8"
  have h1 := h.2.1 (by decide)
  have g := range_mode_no_config_without_resolution (fun _ => true) cfg4
    "Ethernet4" "Ethernet8"
  have g1 := g.2.2.2 ["0x4"] (by decide) (by decide)
  refine ⟨h.1 (Or.inl h1), ?_⟩
  rw [g1,
    show (parse_range cfg4 "Ethernet4" "Ethernet8").cfg.ports
      = ["Ethernet4"] from by decide]
  rfl


theorem isDigit_not_pyspace (c : Char) (h : c.isDigit = true) :
    isPySpace c = false := by
  have h1 : c ≠ ' ' := by intro e; subst e; simp at h
  have h2 : c ≠ '\t' := by intro e; subst e; simp at h
  have h3 : c ≠ '\n' := by intro e; subst e; simp at h
  have h4 : c ≠ '\r' := by intro e; subst e; simp at h
  simp [isPySpace, h1, h2, h3, h4]

theorem all_digits_dropWhile_pyspace (l : List Char)
    (h : l.all Char.isDigit = true) : l.dropWhile isPySpace = l := by
  cases l with
  | nil => rfl
  | cons c t =>
    simp only [List.all_cons, Bool.and_eq_true] at h
    simp [List.dropWhile, isDigit_not_pyspace c h.1]

theorem isPrefixOf_self_append (p q : List Char) :
    p.isPrefixOf (p ++ q) = true :=
  List.isPrefixOf_iff_prefix.mpr (List.prefix_append p q)

theorem findSub_of_prefix (pat l : List Char)
    (h : pat.isPrefixOf l = true) : findSub pat l = some 0 := by
  cases l with
  | nil =>
    cases pat with
    | nil => rfl
    | cons a b => simp [List.isPrefixOf] at h
  | cons c t => simp [findSub, h]

theorem pyInt_all_digits (ds : List Char) (hne : ds ≠ [])
    (hd : ds.all Char.isDigit = true) :
    pyInt (String.mk ds) = Except.ok (digitsVal ds : Int) := by
  have h1 : ds.dropWhile isPySpace = ds := all_digits_dropWhile_pyspace _ hd
  have hrev : ds.reverse.all Char.isDigit = true := by simpa using hd
  have h2 : ds.reverse.dropWhile isPySpace = ds.reverse :=
    all_digits_dropWhile_pyspace _ hrev
  have hstrip : (((String.mk ds).data.dropWhile isPySpace).reverse.dropWhile
      isPySpace).reverse = ds := by
    show ((ds.dropWhile isPySpace).reverse.dropWhile isPySpace).reverse = ds
    rw [h1, h2, List.reverse_reverse]
  rw [pyInt, hstrip]
  cases ds with
  | nil => exact absurd rfl hne
  | cons c t =>
    simp only [List.all_cons, Bool.and_eq_true] at hd
    have hm : c ≠ '-' := by intro e; subst e; simp at hd
    have hp : c ≠ '+' := by intro e; subst e; simp at hd
    dsimp only
    rw [if_neg hm, if_neg hp, if_pos]
    simp [List.all_cons, hd.1, hd.2]

/-- C8 counterexample: the sort key function is not total — on the port
name "Ethernetx" (which contains "Ethernet" but whose suffix is not a
decimal number) `int("x")` raises `ValueError` instead of yielding key 0. -/
theorem port_sorting_raises_concrete :
    port_sorting ("Ethernetx", "z") = Except.error () ∧
    (Except.error () : Except Unit Int) ≠ Except.ok 0 :=
  ⟨rfl, fun h => Except.noConfusion h⟩

/-- C8 (amended): the sort key is 0 exactly for names in which "Ethernet"
does not occur as a substring (Python `in` is containment, not a prefix
test); for names of the form "Ethernet" followed by a non-empty decimal
suffix, the key is that numeric suffix; for any other name containing
"Ethernet", `int(name[8:])` raises `ValueError`, so the key function is not
total over all port-name strings. -/
theorem port_sorting_key_characterization (name lid : String) :
    (findSub "Ethernet".data name.data = none →
      port_sorting (name, lid) = Except.ok 0) ∧
    (∀ ds : List Char, ds ≠ [] → ds.all Char.isDigit = true →
      port_sorting ("Ethernet" ++ String.mk ds, lid)
        = Except.ok (digitsVal ds : Int)) := by
  constructor
  · intro h
    rw [port_sorting]
    simp [h]
  · intro ds hne hd
    have hdata : ("Ethernet" ++ String.mk ds).data
        = "Ethernet".data ++ ds := String.data_append _ _
    have hfind : findSub "Ethernet".data ("Ethernet" ++ String.mk ds).data
        = some 0 := by
      rw [hdata]
      exact findSub_of_prefix _ _ (isPrefixOf_self_append _ _)
    have hdrop : ("Ethernet".data ++ ds).drop "Ethernet".length = ds :=
      List.drop_left _ _
    rw [port_sorting]
    dsimp only
    rw [hfind]
    simp only [Option.isSome_some, if_true, ite_true]
    rw [hdata, hdrop]
    exact pyInt_all_digits ds hne hd

/-- C8 witness: a name without "Ethernet" gets key 0; "Ethernet42" gets
key 42. -/
theorem port_sorting_key_witness :
    port_sorting ("foo", "z") = Except.ok 0 ∧
    port_sorting ("Ethernet42", "z") = Except.ok 42 :=
  ⟨(port_sorting_key_characterization "foo" "z").1 (by decide),
   (port_sorting_key_characterization "Ethernet42" "z").2 ['4', '2']
     (by decide) (by decide)⟩

theorem findSub_le (pat : List Char) :
    ∀ (l : List Char) (i : Nat), findSub pat l = some i →
      i + pat.length ≤ l.length := by
  intro l
  induction l with
  | nil =>
    intro i h
    by_cases hp : pat = []
    · subst hp
      simp [findSub] at h
      simp [h.symm]
    · simp [findSub, hp] at h
  | cons c t ih =>
    intro i h
    rw [findSub] at h
    by_cases hpre : pat.isPrefixOf (c :: t) = true
    · rw [if_pos hpre] at h
      cases h
      have hp2 := List.isPrefixOf_iff_prefix.mp hpre
      have := hp2.length_le
      simpa using this
    · rw [if_neg hpre] at h
      rw [Option.map_eq_some'] at h
      obtain ⟨a, ha, hi⟩ := h
      have := ih a ha
      simp only [List.length_cons]
      omega

theorem pyIndex_le_neg_one (n : Nat) (b : Int)
    (hb : b + 1 ≤ (n : Int) ∨ b < 0) :
    pyIndex n b ≤ pyIndex n (-1) := by
  rw [pyIndex, pyIndex]
  have hneg : ((-1 : Int) < 0) := by norm_num
  rw [if_pos hneg]
  by_cases hbn : b < 0
  · rw [if_pos hbn]
    omega
  · rw [if_neg hbn]
    rcases hb with hb | hb
    · omega
    · exact absurd hb hbn

theorem pySlice_empty_of_le (l : List Char) (a b : Int)
    (h : pyIndex l.length b ≤ pyIndex l.length a) :
    pySlice l a b = [] := by
  have hz : pyIndex l.length b - pyIndex l.length a = 0 :=
    Nat.sub_eq_zero_of_le h
  simp [pySlice, hz]

/-- C3 counterexample: a snapshot that contains the starting marker
`netdev_dump` but not the ending marker `cmd_ifc_dump`.  Python `find`
returns -1 for the missing end marker, which as a slice bound means "up to
the last character", so the parsed section is non-empty and the built table
is non-empty — contradicting "marker absent implies empty table". -/
theorem build_nonempty_without_end_marker :
    findSub "cmd_ifc_dump".data "netdev_dump\nh\nh\nh\na b c d".data
        = none ∧
    build_translation_dict "netdev_dump\nh\nh\nh\na b c d"
        = Except.ok [("b", "c")] ∧
    ([("b", "c")] : List (String × String)) ≠ [] := by
  refine ⟨by decide, rfl, by decide⟩

/-- C3 (amended): when the starting marker `netdev_dump` does not occur in
the snapshot, the built translation table is empty (the start slice bound
is -1, i.e. the last character, so the section holds no complete row).
When only the ending marker is absent the table can be non-empty. -/
theorem build_translation_dict_start_marker_absent (dump : String)
    (h : findSub "netdev_dump".data dump.data = none) :
    build_translation_dict dump = Except.ok [] := by
  have hstart : strFind "netdev_dump".data dump.data = -1 := by
    rw [strFind, h]
  have hregion : pySlice dump.data (strFind "netdev_dump".data dump.data)
      (strFind "cmd_ifc_dump".data dump.data) = [] := by
    rw [hstart]
    apply pySlice_empty_of_le
    apply pyIndex_le_neg_one
    cases hend : findSub "cmd_ifc_dump".data dump.data with
    | none =>
      simp only [strFind, hend]
      right
      norm_num
    | some i =>
      left
      simp only [strFind, hend]
      have hi := findSub_le "cmd_ifc_dump".data dump.data i hend
      have hlen : ("cmd_ifc_dump".data).length = 12 := rfl
      omega
  rw [build_translation_dict]
  simp only [hregion]
  simp [splitOnNl, pySorted, sortByKey]

/-- C3 witness for the amended theorem: a snapshot with no markers at all
yields the empty table. -/
theorem build_translation_dict_start_absent_witness :
    build_translation_dict "hello" = Except.ok [] :=
  build_translation_dict_start_marker_absent "hello" (by decide)

/-- C4 counterexample: with table {Ethernet0 -> 0x1} and requested list
[Ethernet0, Ethernet4], the unknown name Ethernet4 is skipped (it is not in
the loop's `configured_ports` list and no collaborator invocation is made
for it), but the file persisted afterwards stores the full requested list
including Ethernet4 — because `save_config` writes `self.ports`, which
`config_ports` set to the whole request, while the filtered
`configured_ports` list is discarded. -/
theorem list_mode_persists_unknown_concrete :
    (list_mode (fun _ => true) [("Ethernet0", "0x1")] 0
        ["Ethernet0", "Ethernet4"]).file
      = save_config ["Ethernet0", "Ethernet4"] 0 ∧
    (list_mode (fun _ => true) [("Ethernet0", "0x1")] 0
        ["Ethernet0", "Ethernet4"]).configured_ports = ["Ethernet0"] ∧
    (list_mode (fun _ => true) [("Ethernet0", "0x1")] 0
        ["Ethernet0", "Ethernet4"]).trace
      = [Event.setLoopback "0x1" 0] ∧
    "Ethernet4" ∉ (list_mode (fun _ => true) [("Ethernet0", "0x1")] 0
        ["Ethernet0", "Ethernet4"]).configured_ports := by
  refine ⟨rfl, by decide, by decide, by decide⟩

/-- C4 (amended): in list mode, unknown names are skipped with a diagnostic
— they are excluded from the loop's `configured_ports` list and produce no
collaborator invocation — but the port set persisted afterwards is the full
requested list, unknown names included (`self.ports` is set to the request
and `save_config` writes `self.ports`; the filtered list is discarded). -/
theorem list_mode_persists_full_request (txOk : Nat → Bool)
    (tbl : List (String × String)) (lt : Int) (req : List String)
    (h : req ≠ []) :
    (list_mode txOk tbl lt req).cfg.ports = req ∧
    (list_mode txOk tbl lt req).file = save_config req lt ∧
    (list_mode txOk tbl lt req).configured_ports
      = req.filter (fun p => truthyStr (dict_get tbl p)) ∧
    ∀ p, truthyStr (dict_get tbl p) = false →
      port_events txOk tbl lt p = [] := by
  have hne : req.isEmpty = false := by
    cases req with
    | nil => exact absurd rfl h
    | cons a t => rfl
  refine ⟨?_, ?_, ?_, ?_⟩
  · simp [list_mode, config_ports, hne]
  · simp [list_mode, config_ports, hne]
  · simp [list_mode, config_ports, hne]
  · intro p hp
    cases hg : dict_get tbl p with
    | none => simp [port_events, hg]
    | some s =>
      rw [hg] at hp
      simp [truthyStr] at hp
      simp [port_events, hg, hp]

/-- C4 witness for the amended theorem: the counterexample's inputs. -/
theorem list_mode_persists_full_request_witness :
    (list_mode (fun _ => false) [("Ethernet0", "0x1")] 2
        ["Ethernet0", "Ethernet4"]).file
      = save_config ["Ethernet0", "Ethernet4"] 2 ∧
    (list_mode (fun _ => false) [("Ethernet0", "0x1")] 2
        ["Ethernet0", "Ethernet4"]).configured_ports = ["Ethernet0"] := by
  have h := list_mode_persists_full_request (fun _ => false)
    [("Ethernet0", "0x1")] 2 ["Ethernet0", "Ethernet4"] (by decide)
  exact ⟨h.2.1, h.2.2.1.trans (by decide)⟩
